import Mathlib

/-!
Verification of the Quarry Ops data layer (`db.py`) and its time helpers
(`app.py`), embedded shallowly: the SQLite tables become lists of row
structures, each mutating operation becomes a function from database state
to database state, and `datetime.utcnow()` becomes an explicit `now`
argument.  REAL columns hold `ℚ`; nullable columns hold `Option` values.
-/

namespace Quarry

/-- Modelled from werkzeug's `generate_password_hash`: the real function
returns a `method$salt$digest` string (never the plaintext, always carrying a
nonempty method prefix).  The model is deterministic so that
`check_password_hash` can verify exactly the hashed password. -/
def generate_password_hash (password : String) : String :=
  "scrypt:32768:8:1$" ++ password

/-- Modelled from werkzeug's `check_password_hash`: verification succeeds
exactly on the password whose hash was stored. -/
def check_password_hash (pwhash password : String) : Bool :=
  pwhash == generate_password_hash password

/-- A row of the `users` table (db.py lines 20-28). -/
structure UserRow where
  id : Nat
  username : String
  password_hash : String
  role : String
  created_at : String
deriving DecidableEq, Repr

/-- A row of the `production` table (db.py lines 31-44). -/
structure ProductionRow where
  id : Nat
  timestamp : String
  hourly_tons : Option ℚ
  daily_tons : Option ℚ
  block_w : Option ℚ
  block_h : Option ℚ
  block_l : Option ℚ
  block_volume : Option ℚ
  notes : Option String
  username : Option String
deriving DecidableEq, Repr

/-- A row of the `equipment` table (db.py lines 47-60). -/
structure EquipmentRow where
  id : Nat
  equipment_type : Option String
  equipment_id : Option String
  status : Option String
  start_time : Option String
  end_time : Option String
  running_time : Option ℚ
  production_tons : Option ℚ
  username : Option String
  last_updated : Option String
deriving DecidableEq, Repr

/-- A row of the `inventory` table (db.py lines 63-73). -/
structure InventoryRow where
  id : Nat
  location : Option String
  material_type : Option String
  quantity : Option ℚ
  unit : Option String
  date_stocked : Option String
  username : Option String
deriving DecidableEq, Repr

/-- A row of the `workers` table (db.py lines 76-89). -/
structure WorkerRow where
  id : Nat
  name : Option String
  role : Option String
  shift : Option String
  start_time : Option String
  end_time : Option String
  working_hours : Option ℚ
  working_place : Option String
  hired_on : Option String
  username : Option String
deriving DecidableEq, Repr

/-- A row of the `environment` table (db.py lines 92-103). -/
structure EnvironmentRow where
  id : Nat
  timestamp : Option String
  noise_db : Option ℚ
  air_quality : Option String
  water_usage_l : Option ℚ
  compliance_status : Option String
  notes : Option String
  username : Option String
deriving DecidableEq, Repr

/-- Shared shape of the five domain tables, as used by the generic
`fetch_all` (every domain table has a surrogate `id` and a nullable
`username` column). -/
class TableRow (α : Type) where
  rowId : α → Nat
  rowUsername : α → Option String

instance : TableRow ProductionRow := ⟨ProductionRow.id, ProductionRow.username⟩

instance : TableRow EquipmentRow := ⟨EquipmentRow.id, EquipmentRow.username⟩

instance : TableRow InventoryRow := ⟨InventoryRow.id, InventoryRow.username⟩

instance : TableRow WorkerRow := ⟨WorkerRow.id, WorkerRow.username⟩

instance : TableRow EnvironmentRow := ⟨EnvironmentRow.id, EnvironmentRow.username⟩

/-- The whole database state: the `users` table plus the five domain
tables created by `init_db` (db.py lines 14-103). -/
structure DB where
  users : List UserRow
  production : List ProductionRow
  equipment : List EquipmentRow
  inventory : List InventoryRow
  workers : List WorkerRow
  environment : List EnvironmentRow
deriving DecidableEq, Repr

/-- SQLite `INTEGER PRIMARY KEY AUTOINCREMENT`: the id assigned to a fresh
row is strictly larger than every id already in the table. -/
def nextId (ids : List Nat) : Nat :=
  ids.foldr max 0 + 1

/-- Python truthiness of the optional `username` argument of `fetch_all`
(db.py line 251, `if username:`): `None` and the empty string are falsy. -/
def truthy : Option String → Bool
  | none => false
  | some s => s ≠ ""

/-- `ORDER BY id DESC` (db.py lines 252 and 254). -/
def orderByIdDesc {α : Type} [TableRow α] (rows : List α) : List α :=
  rows.mergeSort (fun a b => TableRow.rowId b ≤ TableRow.rowId a)

/-- `fetch_all(table, username=None)` (db.py lines 248-257): when the
`username` argument is truthy the rows are filtered by
`WHERE username = ?` (a SQL `NULL` owner never matches), otherwise every
row of the table is returned; either way ordered by `id DESC`. -/
def fetch_all {α : Type} [TableRow α] (rows : List α) (username : Option String) : List α :=
  if truthy username then
    orderByIdDesc (rows.filter fun r => TableRow.rowUsername r == some (username.getD ""))
  else
    orderByIdDesc rows

/-- The authenticated caller context held in the session state
(`{"id", "username", "role"}`, db.py line 150). -/
structure AuthUser where
  id : Nat
  username : String
  role : String
deriving DecidableEq, Repr

/-- The read pattern every page of app.py applies (e.g. `dashboard_page`,
app.py lines 93-103): an admin caller reads the whole table, any other
caller passes its own username to `fetch_all`. -/
def scopedFetch {α : Type} [TableRow α] (user : AuthUser) (rows : List α) : List α :=
  if user.role = "admin" then fetch_all rows none
  else fetch_all rows (some user.username)

/-- The default-admin bootstrap of `init_db` (db.py lines 107-120): look up
a user named `Admin` (`fetchone`); when absent, insert one with role
`admin` and the hash of password `ad_01`. -/
def init_db (db : DB) (now : String) : DB :=
  match db.users.find? (fun u => u.username == "Admin") with
  | some _ => db
  | none =>
      { db with users := db.users ++
          [⟨nextId (db.users.map UserRow.id), "Admin", generate_password_hash "ad_01", "admin", now⟩] }

/-- `create_user(username, password, role)` (db.py lines 125-139): the
password is hashed, then the single `INSERT` either succeeds or raises
`IntegrityError` — from the `UNIQUE` constraint on `username` or from the
schema's `CHECK(role IN ('admin','user'))` (db.py line 25) — and the
`except` branch answers `(False, "Username already exists")` for either
violated constraint.  Returns the new table together with the
`(ok, message)` pair the source returns. -/
def create_user (users : List UserRow) (username password role now : String) :
    List UserRow × Bool × String :=
  if users.any (fun u => u.username == username) || !(role == "admin" || role == "user") then
    (users, false, "Username already exists")
  else
    (users ++ [⟨nextId (users.map UserRow.id), username, generate_password_hash password, role, now⟩],
      true, "User created")

/-- The result of `authenticate_user`: either the `(True, user-dict)` pair
or a `(False, message)` pair. -/
inductive AuthResult where
  | success (user : AuthUser)
  | failure (message : String)
deriving DecidableEq, Repr

/-- `authenticate_user(username, password)` (db.py lines 141-153):
`fetchone` on `WHERE username = ?` (usernames are unique), then the three
outcomes of the source. -/
def authenticate_user (users : List UserRow) (username password : String) : AuthResult :=
  match users.find? (fun u => u.username == username) with
  | none => .failure "User not found"
  | some row =>
      if check_password_hash row.password_hash password then
        .success ⟨row.id, row.username, row.role⟩
      else
        .failure "Invalid password"

/-- The dict argument of `insert_equipment` (db.py lines 176-194): every
column except the server-assigned `id` and the stamped `last_updated`. -/
structure EquipmentInput where
  equipment_type : Option String
  equipment_id : Option String
  status : Option String
  start_time : Option String
  end_time : Option String
  running_time : Option ℚ
  production_tons : Option ℚ
  username : Option String
deriving DecidableEq, Repr

/-- `insert_equipment(e)` (db.py lines 176-194): append a fresh row with a
server-assigned id and `last_updated = datetime.utcnow()`. -/
def insert_equipment (db : DB) (e : EquipmentInput) (now : String) : DB :=
  { db with equipment := db.equipment ++
      [⟨nextId (db.equipment.map EquipmentRow.id), e.equipment_type, e.equipment_id, e.status,
        e.start_time, e.end_time, e.running_time, e.production_tons, e.username, some now⟩] }

/-- `update_equipment(equipment_id, status, start_time, end_time,
running_time, production_tons)` (db.py lines 196-205): one `UPDATE ...
WHERE equipment_id = ?` over the whole table; SQL equality never matches a
`NULL` column or a `NULL` parameter. -/
def update_equipment (db : DB) (equipment_id : Option String)
    (status start_time end_time : Option String) (running_time production_tons : Option ℚ)
    (now : String) : DB :=
  { db with equipment := db.equipment.map fun r =>
      if (match r.equipment_id, equipment_id with
          | some a, some b => a == b
          | _, _ => false) then
        { r with status := status, start_time := start_time, end_time := end_time,
                 running_time := running_time, production_tons := production_tons,
                 last_updated := some now }
      else r }

/-- `clear_all_data()` (db.py lines 268-275): `DELETE FROM t` for each of
the five domain tables, then a single `commit` — one transaction, the
`users` table untouched. -/
def clear_all_data (db : DB) : DB :=
  { db with production := [], equipment := [], inventory := [], workers := [], environment := [] }

/-- Modelled from the spec: `upsert_by_business_key(equipment_id, fields)`
of §4.4 belongs to the second app variant, which is not under `src/` (the
variant in `src/` only has the `insert_equipment` / `update_equipment`
building blocks, and `app.py` never calls `update_equipment`).  Spec
semantics, verbatim: "look up the most recent record with matching
`equipment_id`; if found, overwrite its mutable fields (status, time
window, computed running time, production total) and stamp a new
`last_updated` timestamp; if not found, insert a new record." -/
def upsert_by_business_key (db : DB) (equipment_id : String) (fields : EquipmentInput)
    (now : String) : DB :=
  match orderByIdDesc (db.equipment.filter fun r => r.equipment_id == some equipment_id) with
  | [] => insert_equipment db { fields with equipment_id := some equipment_id } now
  | current :: _ =>
      { db with equipment := db.equipment.map fun r =>
          if r.id == current.id then
            { r with status := fields.status, start_time := fields.start_time,
                     end_time := fields.end_time, running_time := fields.running_time,
                     production_tons := fields.production_tons, last_updated := some now }
          else r }

/-- Split a character list at every colon (the `:` separators of the
`"%H:%M:%S"` format). -/
def splitOnColon (cs : List Char) : List (List Char) :=
  cs.foldr
    (fun c acc =>
      if c = ':' then [] :: acc
      else
        match acc with
        | g :: gs => (c :: g) :: gs
        | [] => [[c]])
    [[]]

/-- One field of a `"%H:%M:%S"` time string, as `datetime.strptime` accepts
it: one or two decimal digits whose value is at most `maxv` (the strptime
regular expressions allow dropped zero padding; a two-digit hour beyond 23,
a minute beyond 59 or a second beyond 59 makes the whole parse raise). -/
def parseField (cs : List Char) (maxv : Nat) : Option Nat :=
  if (cs.length = 1 ∨ cs.length = 2) ∧ cs.all Char.isDigit then
    let v := cs.foldl (fun n c => n * 10 + (c.toNat - 48)) 0
    if v ≤ maxv then some v else none
  else none

/-- `datetime.strptime(s, "%H:%M:%S")` (app.py lines 39-41), reduced to the
seconds-since-midnight it denotes; `none` is the `ValueError` of a failed
parse (wrong shape, a non-digit, or an out-of-range field). -/
def parseTime (s : String) : Option Nat :=
  match splitOnColon s.toList with
  | [h, m, sec] =>
      match parseField h 23, parseField m 59, parseField sec 59 with
      | some hv, some mv, some sv => some (hv * 3600 + mv * 60 + sv)
      | _, _, _ => none
  | _ => none

/-- Round-half-even of a rational to an integer, the rounding of Python's
`round`. -/
def roundHalfEven (q : ℚ) : ℤ :=
  let f := ⌊q⌋
  if q - f < 1 / 2 then f
  else if 1 / 2 < q - f then f + 1
  else if f % 2 = 0 then f else f + 1

/-- `round(x, 4)` (app.py line 44). -/
def round4 (q : ℚ) : ℚ :=
  (roundHalfEven (q * 10000) : ℚ) / 10000

/-- `calculate_running_time(start_24, end_24)` (app.py lines 37-46): parse
both strings, take the difference in hours, clamp a negative difference to
0 and round to 4 decimals; any parse failure is swallowed by the bare
`except` and yields `0.0`. -/
def calculate_running_time (start_24 end_24 : String) : ℚ :=
  match parseTime start_24, parseTime end_24 with
  | some t1, some t2 => round4 (max (((t2 : ℚ) - (t1 : ℚ)) / 3600) 0)
  | _, _ => 0

/-- The hour arithmetic of `convert_to_24h` (app.py lines 31-34): the two
sequential `if` statements mutating `hour`. -/
def hour24 (hour : ℤ) (meridiem : String) : ℤ :=
  let hour := if meridiem = "PM" ∧ hour ≠ 12 then hour + 12 else hour
  let hour := if meridiem = "AM" ∧ hour = 12 then 0 else hour
  hour

/-- Python's `f"{n:02d}"`: zero-pad to width 2. -/
def pad2 (n : ℤ) : String :=
  if 0 ≤ n ∧ n < 10 then "0" ++ toString n else toString n

/-- `convert_to_24h(hour, minute, meridiem)` (app.py lines 28-35). -/
def convert_to_24h (hour minute : ℤ) (meridiem : String) : String :=
  pad2 (hour24 hour meridiem) ++ ":" ++ pad2 minute ++ ":00"

/-- The 12-hour to 24-hour conversion as a map on the finite valid input
domain of the claim ((hour 1-12, minute 0-59, AM/PM), the `Bool` being
`true` for `PM`), landing in `{0..23} × {0..59}`; the hour component is
exactly `hour24` of `convert_to_24h`. -/
def to24 (x : Fin 12 × Fin 60 × Bool) : Fin 24 × Fin 60 :=
  (⟨(hour24 ((x.1 : ℕ) + 1 : ℤ) (cond x.2.2 "PM" "AM")).toNat % 24, Nat.mod_lt _ (by norm_num)⟩,
    x.2.1)

/-- The inverse direction of the 12-hour/24-hour correspondence, used to
establish bijectivity of `to24`. -/
def from24 (y : Fin 24 × Fin 60) : Fin 12 × Fin 60 × Bool :=
  (⟨(if (y.1 : ℕ) % 12 = 0 then 12 else (y.1 : ℕ) % 12) - 1, by
      have h : (y.1 : ℕ) % 12 < 12 := Nat.mod_lt _ (by norm_num)
      split <;> omega⟩,
    y.2, decide (12 ≤ (y.1 : ℕ)))

/-! Concrete rows and states used by witnesses and counterexamples. -/

/-- A production row owned by `alice`. -/
def prodRowAlice : ProductionRow :=
  ⟨1, "2025-01-01T00:00:00", some 5, none, none, none, none, none, none, some "alice"⟩

/-- A production row owned by `bob`. -/
def prodRowBob : ProductionRow :=
  ⟨2, "2025-01-02T00:00:00", some 7, none, none, none, none, none, none, some "bob"⟩

/-- A database whose only user is an administrator named `Boss` (no user is
named `Admin`). -/
def dbBoss : DB :=
  ⟨[⟨1, "Boss", generate_password_hash "pw", "admin", "t0"⟩], [], [], [], [], []⟩

/-- A database already holding the bootstrap `Admin` user. -/
def dbWithAdmin : DB :=
  ⟨[⟨1, "Admin", generate_password_hash "ad_01", "admin", "t0"⟩], [], [], [], [], []⟩

/-- A first set of equipment fields. -/
def equipIn1 : EquipmentInput :=
  ⟨some "Excavator", none, some "Idle", some "08:00:00", some "12:00:00", some 4, some 10,
    some "bob"⟩

/-- A second set of equipment fields, submitted for the same equipment tag. -/
def equipIn2 : EquipmentInput :=
  ⟨some "Dumper", none, some "Running", some "13:00:00", some "17:30:00", some (9 / 2), some 25,
    some "alice"⟩

/-- An equipment row tagged `EX-1`, owned by `bob`. -/
def equipRowEx1 : EquipmentRow :=
  ⟨1, some "Excavator", some "EX-1", some "Idle", some "08:00:00", some "12:00:00", some 4,
    some 10, some "bob", some "t0"⟩

/-- An equipment row tagged `EX-2`, owned by `alice`. -/
def equipRowEx2 : EquipmentRow :=
  ⟨2, some "Dumper", some "EX-2", some "Running", some "09:00:00", some "10:00:00", some 1,
    some 3, some "alice", some "t0"⟩

/-- A database with the two equipment rows above. -/
def dbEquip : DB :=
  ⟨[], [], [equipRowEx1, equipRowEx2], [], [], []⟩

/-- The `EX-1` row after an update stamping `t1`. -/
def equipRowEx1Updated : EquipmentRow :=
  ⟨1, some "Excavator", some "EX-1", some "Running", some "06:00:00", some "18:00:00",
    some 12, some 99, some "bob", some "t1"⟩

/-! Shared helper lemmas. -/

/-- Zipping a list with its own image under `f` pairs every element with
its image. -/
theorem zip_self_map {α β : Type} (xs : List α) (f : α → β) :
    xs.zip (xs.map f) = xs.map fun a => (a, f a) := by
  induction xs with
  | nil => rfl
  | cons x rest ih => simpa using ih

/-- A member of the zip of a list with its image under `f` is a pair whose
second component is `f` of the first. -/
theorem mem_zip_map {α β : Type} {xs : List α} {f : α → β} {p : α × β}
    (hp : p ∈ xs.zip (xs.map f)) : p.2 = f p.1 ∧ p.1 ∈ xs := by
  rw [zip_self_map] at hp
  obtain ⟨a, ha, h⟩ := List.mem_map.mp hp
  cases h
  exact ⟨rfl, ha⟩

/-- A map that fixes every member of a list fixes the list. -/
theorem map_eq_self_of_mem {α : Type} {f : α → α} {xs : List α} (h : ∀ x ∈ xs, f x = x) :
    xs.map f = xs := by
  induction xs with
  | nil => rfl
  | cons x rest ih => simp_all

/-- Every member of a list of naturals is at most the `foldr max 0`. -/
theorem le_foldr_max {xs : List ℕ} {n : ℕ} (hn : n ∈ xs) : n ≤ xs.foldr max 0 := by
  induction xs with
  | nil => simp at hn
  | cons m rest ih =>
      rcases List.mem_cons.mp hn with rfl | hmem
      · exact Nat.le_max_left _ _
      · exact le_trans (ih hmem) (Nat.le_max_right _ _)

/-- The id assigned by `nextId` is fresh: no existing id equals it. -/
theorem nextId_fresh {xs : List ℕ} {n : ℕ} (hn : n ∈ xs) : n ≠ nextId xs := by
  have := le_foldr_max hn
  unfold nextId
  omega

/-- C3: `clear_all_data` empties every one of the five domain tables and
leaves the `users` table unchanged; in the embedding the five deletes and
the single commit are one state transition, so the cleared state is the
only one readers can observe. -/
theorem clear_all_data_spec (db : DB) :
    (clear_all_data db).production = [] ∧ (clear_all_data db).equipment = [] ∧
    (clear_all_data db).inventory = [] ∧ (clear_all_data db).workers = [] ∧
    (clear_all_data db).environment = [] ∧ (clear_all_data db).users = db.users :=
  ⟨rfl, rfl, rfl, rfl, rfl, rfl⟩

/-- C9: `fetch_all` with the empty string as `username` behaves exactly
like `fetch_all` with no username — the truthiness test of
`if username:` treats the empty string like `None` — so it returns every
row of the table, and a caller context with an empty username receives the
unscoped view from the page-level read pattern. -/
theorem fetch_all_empty_username {α : Type} [TableRow α] (rows : List α) :
    fetch_all rows (some "") = fetch_all rows none ∧
    (∀ r : α, r ∈ fetch_all rows (some "") ↔ r ∈ rows) ∧
    (∀ (i : ℕ) (role : String), scopedFetch ⟨i, "", role⟩ rows = fetch_all rows none) := by
  have h1 : fetch_all rows (some "") = fetch_all rows none := by
    simp [fetch_all, truthy]
  refine ⟨h1, fun r => ?_, fun i role => ?_⟩
  · rw [h1]
    simp only [fetch_all, truthy, orderByIdDesc, if_neg]
    exact (List.mergeSort_perm rows _).mem_iff
  · by_cases hrole : role = "admin" <;> simp [scopedFetch, hrole, h1]

/-- C1 counterexample: the claim quantifies over every caller with role
`user`, but a caller whose username is the empty string receives the
unscoped view, so a read for that caller returns a row owned by `alice`,
i.e. by another user. -/
theorem scopedFetch_leak_on_empty_username :
    (AuthUser.mk 7 "" "user").role = "user" ∧
    scopedFetch (AuthUser.mk 7 "" "user") [prodRowAlice] = [prodRowAlice] ∧
    prodRowAlice.username = some "alice" ∧
    some "alice" ≠ some (AuthUser.mk 7 "" "user").username := by
  refine ⟨rfl, ?_, rfl, by decide⟩
  simp [scopedFetch, fetch_all, truthy, orderByIdDesc]

/-- C1 (amended): for a caller with role `user` and a nonempty username,
the page-level read returns only rows whose owner username equals the
caller's username, over any of the five domain tables; for a caller with
role `admin` it returns all rows of the table, across all owners. -/
theorem scopedFetch_scoping {α : Type} [TableRow α] (user : AuthUser) (rows : List α) :
    (user.role = "user" → user.username ≠ "" →
      ∀ r ∈ scopedFetch user rows, TableRow.rowUsername r = some user.username) ∧
    (user.role = "admin" → List.Perm (scopedFetch user rows) rows) := by
  constructor
  · intro hrole hne r hr
    have ht : truthy (some user.username) = true := by simp [truthy, hne]
    simp only [scopedFetch, hrole] at hr
    rw [if_neg (by decide)] at hr
    simp only [fetch_all, ht, if_pos, Option.getD_some, orderByIdDesc] at hr
    have hmem := (List.mergeSort_perm _ _).mem_iff.mp hr
    simpa using (List.mem_filter.mp hmem).2
  · intro hrole
    simp only [scopedFetch, hrole, if_pos, fetch_all, truthy, Bool.false_eq_true,
      if_neg, orderByIdDesc]
    exact List.mergeSort_perm rows _

/-- C1 witness: a caller `bob` (role `user`, nonempty username) only sees
rows owned by `bob`, and an admin caller's read is the whole table. -/
theorem scopedFetch_scoping_witness :
    ProductionRow.username prodRowBob = some (AuthUser.mk 2 "bob" "user").username ∧
    List.Perm (scopedFetch (AuthUser.mk 1 "root" "admin") [prodRowAlice, prodRowBob])
      [prodRowAlice, prodRowBob] := by
  have hmem : prodRowBob ∈ scopedFetch (AuthUser.mk 2 "bob" "user") [prodRowAlice, prodRowBob] := by
    unfold scopedFetch fetch_all orderByIdDesc
    rw [if_neg (by decide), if_pos (by decide)]
    exact (List.mergeSort_perm _ _).mem_iff.mpr (by decide)
  exact ⟨(scopedFetch_scoping (AuthUser.mk 2 "bob" "user") [prodRowAlice, prodRowBob]).1 rfl
      (by decide) prodRowBob hmem,
    (scopedFetch_scoping (AuthUser.mk 1 "root" "admin") [prodRowAlice, prodRowBob]).2 rfl⟩

/-- C4 counterexample: `init_db` tests for a user *named* `Admin`, not for
an administrator account; on a database whose only user is an
administrator named `Boss`, initialization still inserts a new user, while
the claim says it must create none. -/
theorem init_db_creates_user_despite_admin :
    (dbBoss.users.any fun u => u.role == "admin") = true ∧
    (init_db dbBoss "t1").users.length = dbBoss.users.length + 1 := by
  constructor <;> rfl

/-- C4 (amended): on initialization, if and only if no user with username
`Admin` exists in the users table, exactly one account with username
`Admin`, role `admin` and the hash of the fixed password `ad_01` is
appended; if a user named `Admin` already exists, initialization creates
no new user. -/
theorem init_db_spec (db : DB) (now : String) :
    ((∀ u ∈ db.users, u.username ≠ "Admin") →
      (init_db db now).users = db.users ++
        [⟨nextId (db.users.map UserRow.id), "Admin", generate_password_hash "ad_01",
          "admin", now⟩]) ∧
    ((∃ u ∈ db.users, u.username = "Admin") → init_db db now = db) := by
  constructor
  · intro hno
    have hfind : db.users.find? (fun u => u.username == "Admin") = none := by
      rw [List.find?_eq_none]
      intro u hu
      simpa using hno u hu
    simp [init_db, hfind]
  · rintro ⟨u, hu, huname⟩
    have hsome : (db.users.find? (fun u => u.username == "Admin")).isSome := by
      rw [List.find?_isSome]
      exact ⟨u, hu, by simpa using huname⟩
    obtain ⟨v, hv⟩ := Option.isSome_iff_exists.mp hsome
    simp [init_db, hv]

/-- C4 witness: on an empty users table exactly the default `Admin` row is
created, and on a database already holding `Admin` nothing changes. -/
theorem init_db_spec_witness :
    (init_db ⟨[], [], [], [], [], []⟩ "t1").users =
      [⟨1, "Admin", generate_password_hash "ad_01", "admin", "t1"⟩] ∧
    init_db dbWithAdmin "t2" = dbWithAdmin := by
  constructor
  · have h := (init_db_spec ⟨[], [], [], [], [], []⟩ "t1").1 (by simp)
    simpa [nextId] using h
  · exact (init_db_spec dbWithAdmin "t2").2
      ⟨⟨1, "Admin", generate_password_hash "ad_01", "admin", "t0"⟩, by simp [dbWithAdmin], rfl⟩

/-- C7: `create_user` on an already-taken username fails with the
duplicate-username error and leaves the stored users unchanged (a role
outside the schema's `CHECK` fails the same way, through the same
`IntegrityError` path); on a fresh username with a schema-valid role it
appends exactly the new user, whose stored credential is the password
hash and never the plaintext password itself. -/
theorem create_user_spec (users : List UserRow) (username password role now : String) :
    ((∃ u ∈ users, u.username = username) →
      create_user users username password role now = (users, false, "Username already exists")) ∧
    (role ≠ "admin" → role ≠ "user" →
      create_user users username password role now = (users, false, "Username already exists")) ∧
    ((∀ u ∈ users, u.username ≠ username) → (role = "admin" ∨ role = "user") →
      create_user users username password role now =
        (users ++ [⟨nextId (users.map UserRow.id), username, generate_password_hash password,
          role, now⟩], true, "User created")) ∧
    generate_password_hash password ≠ password := by
  refine ⟨?_, ?_, ?_, ?_⟩
  · rintro ⟨u, hu, hname⟩
    have hdup : users.any (fun u => u.username == username) = true := by
      rw [List.any_eq_true]
      exact ⟨u, hu, by simpa using hname⟩
    simp [create_user, hdup]
  · intro hna hnu
    simp [create_user, hna, hnu]
  · intro hnone hrole
    have hfresh : users.any (fun u => u.username == username) = false := by
      rw [List.any_eq_false]
      intro u hu
      simpa using hnone u hu
    rcases hrole with h | h <;> simp [create_user, hfresh, h]
  · intro hEq
    have hlen := congrArg String.length hEq
    rw [generate_password_hash, String.length_append] at hlen
    have h17 : ("scrypt:32768:8:1$" : String).length = 17 := rfl
    omega

/-- C7 witness: a second `create_user` with the username `bob` is rejected
and changes nothing, a role outside the schema `CHECK` is rejected the
same way, a fresh `carol` with role `user` is appended, and the stored
hash differs from the plaintext. -/
theorem create_user_spec_witness :
    create_user [⟨1, "bob", generate_password_hash "pw1", "user", "t0"⟩] "bob" "pw2" "user" "t1" =
      ([⟨1, "bob", generate_password_hash "pw1", "user", "t0"⟩], false,
        "Username already exists") ∧
    create_user [⟨1, "bob", generate_password_hash "pw1", "user", "t0"⟩] "carol" "pw3"
        "superuser" "t1" =
      ([⟨1, "bob", generate_password_hash "pw1", "user", "t0"⟩], false,
        "Username already exists") ∧
    create_user [⟨1, "bob", generate_password_hash "pw1", "user", "t0"⟩] "carol" "pw3" "user" "t1" =
      ([⟨1, "bob", generate_password_hash "pw1", "user", "t0"⟩,
        ⟨2, "carol", generate_password_hash "pw3", "user", "t1"⟩], true, "User created") ∧
    generate_password_hash "pw3" ≠ "pw3" := by
  refine ⟨(create_user_spec _ "bob" "pw2" "user" "t1").1
      ⟨⟨1, "bob", generate_password_hash "pw1", "user", "t0"⟩, by simp, rfl⟩,
    (create_user_spec _ "carol" "pw3" "superuser" "t1").2.1 (by decide) (by decide), ?_,
    (create_user_spec [] "carol" "pw3" "user" "t1").2.2.2⟩
  have h := (create_user_spec [⟨1, "bob", generate_password_hash "pw1", "user", "t0"⟩]
    "carol" "pw3" "user" "t1").2.2.1 (by simp [generate_password_hash]) (Or.inr rfl)
  simpa [nextId] using h

/-- C8: `authenticate_user` fails with `User not found` exactly when no
user with the given username exists, fails with `Invalid password` exactly
when the user exists but the password does not verify against the stored
hash, succeeds with that user's identity and role otherwise, and the two
failure messages are distinct. -/
theorem authenticate_user_spec (users : List UserRow) (username password : String) :
    ((∀ u ∈ users, u.username ≠ username) ↔
      authenticate_user users username password = .failure "User not found") ∧
    (∀ row, users.find? (fun u => u.username == username) = some row →
      ((check_password_hash row.password_hash password = false) ↔
        authenticate_user users username password = .failure "Invalid password") ∧
      (check_password_hash row.password_hash password = true →
        authenticate_user users username password = .success ⟨row.id, row.username, row.role⟩)) ∧
    ("User not found" : String) ≠ "Invalid password" := by
  refine ⟨?_, ?_, by decide⟩
  · cases hfind : users.find? (fun u => u.username == username) with
    | none =>
        have hall := List.find?_eq_none.mp hfind
        exact iff_of_true (fun u hu => by simpa using hall u hu)
          (by simp [authenticate_user, hfind])
    | some row =>
        have hrowname : row.username = username := by
          simpa using List.find?_some hfind
        refine iff_of_false (fun hall => hall row (List.mem_of_find?_eq_some hfind) hrowname) ?_
        intro hbad
        rw [authenticate_user, hfind] at hbad
        by_cases hchk : check_password_hash row.password_hash password <;>
          simp [hchk] at hbad
  · intro row hrow
    by_cases hchk : check_password_hash row.password_hash password
    · refine ⟨iff_of_false (by simp [hchk]) ?_, fun _ => by simp [authenticate_user, hrow, hchk]⟩
      intro hbad
      rw [authenticate_user, hrow] at hbad
      simp [hchk] at hbad
    · refine ⟨iff_of_true (by simpa using hchk) (by simp [authenticate_user, hrow, hchk]), ?_⟩
      intro htrue
      exact absurd htrue (by simpa using hchk)

/-- C8 witness: with a single stored user `alice`, an unknown username
yields `User not found`, a wrong password for `alice` yields `Invalid
password`, and the correct password yields her identity and role. -/
theorem authenticate_user_spec_witness :
    authenticate_user [⟨1, "alice", generate_password_hash "pw", "user", "t0"⟩] "mallory" "pw" =
      .failure "User not found" ∧
    authenticate_user [⟨1, "alice", generate_password_hash "pw", "user", "t0"⟩] "alice" "wrong" =
      .failure "Invalid password" ∧
    authenticate_user [⟨1, "alice", generate_password_hash "pw", "user", "t0"⟩] "alice" "pw" =
      .success ⟨1, "alice", "user"⟩ := by
  refine ⟨(authenticate_user_spec _ "mallory" "pw").1.mp (by simp), ?_, ?_⟩
  · exact ((authenticate_user_spec _ "alice" "wrong").2.1
      ⟨1, "alice", generate_password_hash "pw", "user", "t0"⟩ (by simp)).1.mp
      (by simp [check_password_hash, generate_password_hash])
  · exact ((authenticate_user_spec _ "alice" "pw").2.1
      ⟨1, "alice", generate_password_hash "pw", "user", "t0"⟩ (by simp)).2
      (by simp [check_password_hash])

/-- C5: on two well-formed `%H:%M:%S` strings, `calculate_running_time`
returns exactly 0 whenever end ≤ start and otherwise the difference in
hours rounded to 4 decimal places; on any parse failure the bare `except`
yields 0 instead of propagating the error. -/
theorem calculate_running_time_spec :
    (∀ s e ts te, parseTime s = some ts → parseTime e = some te →
      ((te ≤ ts → calculate_running_time s e = 0) ∧
       (ts < te → calculate_running_time s e = round4 (((te : ℚ) - (ts : ℚ)) / 3600)))) ∧
    (∀ s e, parseTime s = none ∨ parseTime e = none → calculate_running_time s e = 0) := by
  constructor
  · intro s e ts te hs he
    constructor
    · intro hle
      have hd : ((te : ℚ) - (ts : ℚ)) / 3600 ≤ 0 :=
        div_nonpos_of_nonpos_of_nonneg (sub_nonpos.mpr (by exact_mod_cast hle)) (by norm_num)
      simp only [calculate_running_time, hs, he]
      rw [max_eq_right hd]
      norm_num [round4, roundHalfEven]
    · intro hlt
      have hd : 0 ≤ ((te : ℚ) - (ts : ℚ)) / 3600 :=
        div_nonneg (sub_nonneg.mpr (by exact_mod_cast hlt.le)) (by norm_num)
      simp only [calculate_running_time, hs, he]
      rw [max_eq_left hd]
  · intro s e h
    rcases h with h | h
    · simp [calculate_running_time, h]
    · cases hs : parseTime s <;> simp [calculate_running_time, hs, h]

/-- C5 witness: 09:00:00 to 17:30:00 is 8.5 hours, 14:00:00 back to
09:00:00 clamps to 0, and an unparseable string yields 0. -/
theorem calculate_running_time_spec_witness :
    calculate_running_time "09:00:00" "17:30:00" = 17 / 2 ∧
    calculate_running_time "14:00:00" "09:00:00" = 0 ∧
    calculate_running_time "oops" "09:00:00" = 0 := by
  refine ⟨?_, ?_, ?_⟩
  · have h := (calculate_running_time_spec.1 "09:00:00" "17:30:00" 32400 63000 (by decide) (by decide)).2
      (by norm_num)
    rw [h]
    norm_num [round4, roundHalfEven]
  · exact (calculate_running_time_spec.1 "14:00:00" "09:00:00" 50400 32400 (by decide) (by decide)).1
      (by norm_num)
  · exact calculate_running_time_spec.2 "oops" "09:00:00" (Or.inl (by decide))

set_option maxRecDepth 10000 in
/-- C6: on valid inputs (hour 1-12), the 12-to-24-hour conversion maps 12
PM to 12, 12 AM to 0, adds 12 for PM and keeps the hour for AM; the
minute passes through unchanged into the output string; and the induced
map on the valid domain is a bijection onto `{0..23} × {0..59}`. -/
theorem convert_to_24h_spec :
    (∀ h : ℤ, 1 ≤ h → h ≤ 12 →
      hour24 h "PM" = (if h = 12 then 12 else h + 12) ∧
      hour24 h "AM" = (if h = 12 then 0 else h)) ∧
    (∀ (h m : ℤ) (mer : String),
      convert_to_24h h m mer = pad2 (hour24 h mer) ++ ":" ++ pad2 m ++ ":00") ∧
    Function.Bijective to24 := by
  refine ⟨?_, fun h m mer => rfl, ?_⟩
  · intro h h1 h2
    constructor
    · by_cases hc : h = 12 <;> simp [hour24, hc]
    · by_cases hc : h = 12 <;> simp [hour24, hc]
  · have key1 : ∀ (a : Fin 12) (pm : Bool), from24 (to24 (a, 0, pm)) = (a, 0, pm) := by decide
    have key2 : ∀ H : Fin 24, to24 (from24 (H, 0)) = (H, 0) := by decide
    refine Function.bijective_iff_has_inverse.mpr ⟨from24, ?_, ?_⟩
    · intro x
      obtain ⟨a, m, pm⟩ := x
      have e : from24 (to24 (a, m, pm)) =
          ((from24 (to24 (a, 0, pm))).1, m, (from24 (to24 (a, 0, pm))).2.2) := rfl
      rw [e, key1]
    · intro y
      obtain ⟨H, m⟩ := y
      have e : to24 (from24 (H, m)) = ((to24 (from24 (H, 0))).1, m) := rfl
      rw [e, key2]

/-- C6 witness: 7 PM maps to 19, 12 AM to 0, 12 PM to 12 and 9 AM to 9. -/
theorem convert_to_24h_spec_witness :
    hour24 7 "PM" = 19 ∧ hour24 12 "AM" = 0 ∧ hour24 12 "PM" = 12 ∧ hour24 9 "AM" = 9 := by
  have h7 := convert_to_24h_spec.1 7 (by norm_num) (by norm_num)
  have h12 := convert_to_24h_spec.1 12 (by norm_num) (by norm_num)
  have h9 := convert_to_24h_spec.1 9 (by norm_num) (by norm_num)
  norm_num at h7 h12 h9
  exact ⟨h7.1, h12.2, h12.1, h9.2⟩

/-- C10: `update_equipment` with a given `equipment_id` rewrites the
mutable columns and stamps `last_updated` on every matching row (all of
them), preserves each matching row's `id`, `equipment_type`,
`equipment_id` and `username`, leaves every non-matching row and the other
five tables unchanged, and is the identity when no row matches. -/
theorem update_equipment_spec (db : DB) (eid : String) (st stt et : Option String)
    (rt pt : Option ℚ) (now : String) :
    (update_equipment db (some eid) st stt et rt pt now).users = db.users ∧
    (update_equipment db (some eid) st stt et rt pt now).production = db.production ∧
    (update_equipment db (some eid) st stt et rt pt now).inventory = db.inventory ∧
    (update_equipment db (some eid) st stt et rt pt now).workers = db.workers ∧
    (update_equipment db (some eid) st stt et rt pt now).environment = db.environment ∧
    (update_equipment db (some eid) st stt et rt pt now).equipment.length =
      db.equipment.length ∧
    (∀ p ∈ db.equipment.zip (update_equipment db (some eid) st stt et rt pt now).equipment,
      (p.1.equipment_id = some eid →
        p.2 = { p.1 with
            status := st, start_time := stt, end_time := et, running_time := rt,
            production_tons := pt, last_updated := some now }) ∧
      (p.1.equipment_id ≠ some eid → p.2 = p.1) ∧
      p.2.id = p.1.id ∧ p.2.equipment_type = p.1.equipment_type ∧
      p.2.equipment_id = p.1.equipment_id ∧ p.2.username = p.1.username) ∧
    ((∀ r ∈ db.equipment, r.equipment_id ≠ some eid) →
      update_equipment db (some eid) st stt et rt pt now = db) := by
  refine ⟨rfl, rfl, rfl, rfl, rfl, by simp [update_equipment], ?_, ?_⟩
  · intro p hp
    obtain ⟨h2, h1⟩ := mem_zip_map hp
    have hmain : (p.1.equipment_id = some eid →
        p.2 = { p.1 with
            status := st, start_time := stt, end_time := et, running_time := rt,
            production_tons := pt, last_updated := some now }) ∧
        (p.1.equipment_id ≠ some eid → p.2 = p.1) := by
      constructor
      · intro hid
        rw [h2]
        simp [hid]
      · intro hnid
        rw [h2]
        cases hcase : p.1.equipment_id with
        | none => simp [hcase]
        | some x =>
            have hx : x ≠ eid := fun hx => hnid (by rw [hcase, hx])
            simp [hcase, hx]
    refine ⟨hmain.1, hmain.2, ?_, ?_, ?_, ?_⟩ <;>
      by_cases hid : p.1.equipment_id = some eid
    · rw [hmain.1 hid]
    · rw [hmain.2 hid]
    · rw [hmain.1 hid]
    · rw [hmain.2 hid]
    · rw [hmain.1 hid]
    · rw [hmain.2 hid]
    · rw [hmain.1 hid]
    · rw [hmain.2 hid]
  · intro hall
    have h : (update_equipment db (some eid) st stt et rt pt now).equipment = db.equipment := by
      show db.equipment.map _ = db.equipment
      apply map_eq_self_of_mem
      intro r hr
      have hne : r.equipment_id ≠ some eid := hall r hr
      cases hcase : r.equipment_id with
      | none => simp [hcase]
      | some x =>
          have hx : x ≠ eid := fun hx => hne (by rw [hcase, hx])
          simp [hcase, hx]
    exact congrArg (fun l => { db with equipment := l }) h

/-- C10 witness: on the two-row equipment table, updating tag `EX-1`
rewrites exactly row 1's mutable fields while keeping its identity
columns; updating the absent tag `EX-9` changes nothing. -/
theorem update_equipment_spec_witness :
    equipRowEx1Updated = { equipRowEx1 with
        status := some "Running", start_time := some "06:00:00", end_time := some "18:00:00",
        running_time := some 12, production_tons := some 99, last_updated := some "t1" } ∧
    update_equipment dbEquip (some "EX-9") (some "Running") none none none none "t1" = dbEquip := by
  constructor
  · exact ((update_equipment_spec dbEquip "EX-1" (some "Running") (some "06:00:00")
      (some "18:00:00") (some 12) (some 99) "t1").2.2.2.2.2.2.1
      (equipRowEx1, equipRowEx1Updated) (by decide)).1 (by decide)
  · exact (update_equipment_spec dbEquip "EX-9" (some "Running") none none none none
      "t1").2.2.2.2.2.2.2 (by decide)

/-- Step lemma: when no equipment row matches the business key, the upsert
inserts a fresh row. -/
theorem upsert_notfound (db : DB) (eid : String) (f : EquipmentInput) (now : String)
    (hfilt : db.equipment.filter (fun r => r.equipment_id == some eid) = []) :
    (upsert_by_business_key db eid f now).equipment =
      db.equipment ++ [⟨nextId (db.equipment.map EquipmentRow.id), f.equipment_type, some eid,
        f.status, f.start_time, f.end_time, f.running_time, f.production_tons, f.username,
        some now⟩] := by
  unfold upsert_by_business_key
  rw [hfilt, show orderByIdDesc ([] : List EquipmentRow) = [] from by simp [orderByIdDesc]]
  rfl

/-- Step lemma: when exactly one equipment row matches the business key,
the upsert maps the mutable-field overwrite over the table, keyed on that
row's id. -/
theorem upsert_found (db : DB) (eid : String) (f : EquipmentInput) (now : String)
    (row : EquipmentRow)
    (hfilt : db.equipment.filter (fun r => r.equipment_id == some eid) = [row]) :
    (upsert_by_business_key db eid f now).equipment =
      db.equipment.map fun q =>
        if q.id == row.id then { q with
            status := f.status, start_time := f.start_time, end_time := f.end_time,
            running_time := f.running_time, production_tons := f.production_tons,
            last_updated := some now }
        else q := by
  unfold upsert_by_business_key
  rw [hfilt, show orderByIdDesc [row] = [row] from by simp [orderByIdDesc]]

/-- C2: on a state holding no row for the business key, two successive
`upsert_by_business_key` calls with the same `equipment_id` leave exactly
one row for that key: the first call creates it, the second call mutates
that same row in place — same id, same `equipment_type` and owner from the
first call, the second call's mutable field values and timestamp — and the
table's row count stays at one more than before the first call. -/
theorem upsert_by_business_key_twice (db : DB) (eid : String) (f1 f2 : EquipmentInput)
    (t1 t2 : String) (hfresh : ∀ r ∈ db.equipment, r.equipment_id ≠ some eid) :
    (upsert_by_business_key db eid f1 t1).equipment.length = db.equipment.length + 1 ∧
    (upsert_by_business_key (upsert_by_business_key db eid f1 t1) eid f2 t2).equipment.length =
      db.equipment.length + 1 ∧
    (upsert_by_business_key db eid f1 t1).equipment.filter
        (fun r => r.equipment_id == some eid) =
      [⟨nextId (db.equipment.map EquipmentRow.id), f1.equipment_type, some eid, f1.status,
        f1.start_time, f1.end_time, f1.running_time, f1.production_tons, f1.username,
        some t1⟩] ∧
    (upsert_by_business_key (upsert_by_business_key db eid f1 t1) eid f2 t2).equipment.filter
        (fun r => r.equipment_id == some eid) =
      [⟨nextId (db.equipment.map EquipmentRow.id), f1.equipment_type, some eid, f2.status,
        f2.start_time, f2.end_time, f2.running_time, f2.production_tons, f1.username,
        some t2⟩] := by
  have hfilter0 : db.equipment.filter (fun r => r.equipment_id == some eid) = [] := by
    rw [List.filter_eq_nil_iff]
    intro a ha
    simpa using hfresh a ha
  have hdb1 := upsert_notfound db eid f1 t1 hfilter0
  have hfilter1 : (upsert_by_business_key db eid f1 t1).equipment.filter
      (fun r => r.equipment_id == some eid) =
      [⟨nextId (db.equipment.map EquipmentRow.id), f1.equipment_type, some eid, f1.status,
        f1.start_time, f1.end_time, f1.running_time, f1.production_tons, f1.username,
        some t1⟩] := by
    rw [hdb1, List.filter_append, hfilter0]
    simp
  have hdb2eq := upsert_found (upsert_by_business_key db eid f1 t1) eid f2 t2 _ hfilter1
  rw [hdb1] at hdb2eq
  have hdb2 : (upsert_by_business_key (upsert_by_business_key db eid f1 t1) eid f2 t2).equipment =
      db.equipment ++
      [⟨nextId (db.equipment.map EquipmentRow.id), f1.equipment_type, some eid, f2.status,
        f2.start_time, f2.end_time, f2.running_time, f2.production_tons, f1.username,
        some t2⟩] := by
    rw [hdb2eq, List.map_append]
    congr 1
    · apply map_eq_self_of_mem
      intro r hr
      have hne : r.id ≠ nextId (db.equipment.map EquipmentRow.id) :=
        nextId_fresh (List.mem_map_of_mem _ hr)
      simp [hne]
    · simp
  refine ⟨?_, ?_, hfilter1, ?_⟩
  · rw [hdb1]
    simp
  · rw [hdb2]
    simp
  · rw [hdb2, List.filter_append, hfilter0]
    simp

/-- C2 witness: from the empty database, two upserts for tag `EX-1` leave
exactly one `EX-1` row, carrying the first call's identity and the second
call's field values and timestamp. -/
theorem upsert_by_business_key_twice_witness :
    (upsert_by_business_key (upsert_by_business_key ⟨[], [], [], [], [], []⟩ "EX-1" equipIn1 "t1")
        "EX-1" equipIn2 "t2").equipment.filter (fun r => r.equipment_id == some "EX-1") =
      [⟨1, equipIn1.equipment_type, some "EX-1", equipIn2.status, equipIn2.start_time,
        equipIn2.end_time, equipIn2.running_time, equipIn2.production_tons, equipIn1.username,
        some "t2"⟩] := by
  have h := (upsert_by_business_key_twice ⟨[], [], [], [], [], []⟩ "EX-1" equipIn1 equipIn2
    "t1" "t2" (by simp)).2.2.2
  simpa [nextId] using h

end Quarry
